import Mathlib

/-!
# Asteroids game: entity simulation and collision engine

A shallow embedding of `src/main.cpp`.  Every `float` of the source is an exact
rational here, every `int` an unbounded integer.  Values the program obtains
from its surroundings are inputs of the model: the pressed keys, the frame time,
the width of the ship texture, the results of `cosf`/`sinf`/`Vector2Normalize`,
and the outcomes of the random draws (about whose ranges nothing is assumed).
Drawing code is left out.
-/

namespace Asteroids

/-! ## Vectors -/

/-- The raylib pair of coordinates. -/
structure Vector2 where
  x : ℚ
  y : ℚ
deriving DecidableEq

/-- Componentwise sum, `Vector2Add` of raymath. -/
def Vector2Add (v1 v2 : Vector2) : Vector2 := ⟨v1.x + v2.x, v1.y + v2.y⟩

/-- Scaling by a number, `Vector2Scale` of raymath. -/
def Vector2Scale (v : Vector2) (scale : ℚ) : Vector2 := ⟨v.x * scale, v.y * scale⟩

/-- Square of `Vector2Distance v1 v2`. -/
def distSq (v1 v2 : Vector2) : ℚ := (v1.x - v2.x) * (v1.x - v2.x) + (v1.y - v2.y) * (v1.y - v2.y)

/-- The test `Vector2Distance(v1, v2) < s` of the two collision passes.  The
distance is the square root of `distSq`, so the test is decided on the squares:
it holds exactly when `s` is positive and `distSq v1 v2 < s * s`
(see `distanceLt_iff_sqrt`). -/
def distanceLt (v1 v2 : Vector2) (s : ℚ) : Bool := decide (0 < s ∧ distSq v1 v2 < s * s)

/-! ## Components -/

structure TransformA where
  position : Vector2
  rotation : ℚ
deriving DecidableEq

structure Physics where
  velocity : Vector2
  rotationSpeed : ℚ
deriving DecidableEq

/-- The enumeration `Renderable::Size`, `SMALL = 1, MEDIUM = 2, LARGE = 4`. -/
inductive Size where
  | SMALL
  | MEDIUM
  | LARGE
deriving DecidableEq

/-- Numeric value of a size enumerator. -/
def Size.val : Size → Int
  | .SMALL => 1
  | .MEDIUM => 2
  | .LARGE => 4

def C_WIDTH : Int := 1600
def C_HEIGHT : Int := 1000
def MAX_AST : Nat := 150

/-! ## Asteroids -/

/-- An asteroid of any of the three shapes; the shape only shows in `baseDamage`
and in the drawing code.  `HugeAsteroid` is never constructed by the program. -/
structure Asteroid where
  transform : TransformA
  physics : Physics
  size : Size
  baseDamage : Int
deriving DecidableEq

namespace Asteroid

def GetPosition (a : Asteroid) : Vector2 := a.transform.position

/-- The radius `16.f * (float)render.size`. -/
def GetRadius (a : Asteroid) : ℚ := 16 * (a.size.val : ℚ)

def GetDamage (a : Asteroid) : Int :=
  match a.size with
  | .SMALL => 10
  | .MEDIUM => 20
  | .LARGE => 30

def GetSize (a : Asteroid) : Int := a.size.val

def SetPosition (a : Asteroid) (pos : Vector2) : Asteroid :=
  { a with transform := { a.transform with position := pos } }

def SetSize (a : Asteroid) (s : Size) : Asteroid := { a with size := s }

def SetVelocity (a : Asteroid) (vel : Vector2) : Asteroid :=
  { a with physics := { a.physics with velocity := vel } }

/-- The asteroid after the position and rotation assignments of `Update`. -/
def moved (a : Asteroid) (dt : ℚ) : Asteroid :=
  { a with transform :=
      { position := Vector2Add a.transform.position (Vector2Scale a.physics.velocity dt)
        rotation := a.transform.rotation + a.physics.rotationSpeed * dt } }

/-- The boundary test of `Update` on the current position: true when the
asteroid lies outside the screen by more than its radius. -/
def outOfPlay (a : Asteroid) : Bool :=
  decide (a.transform.position.x < -a.GetRadius ∨
    a.transform.position.x > (C_WIDTH : ℚ) + a.GetRadius ∨
    a.transform.position.y < -a.GetRadius ∨
    a.transform.position.y > (C_HEIGHT : ℚ) + a.GetRadius)

/-- The method `Asteroid::Update`: the moved asteroid and the returned flag
(`false` means out of play). -/
def Update (a : Asteroid) (dt : ℚ) : Asteroid × Bool :=
  let a1 := a.moved dt
  if a1.outOfPlay then (a1, false) else (a1, true)

end Asteroid

/-- The enumeration `AsteroidShape`. -/
inductive AsteroidShape where
  | TRIANGLE
  | SQUARE
  | PENTAGON
  | RANDOM
deriving DecidableEq

/-- Outcomes of the random calls made by one `MakeAsteroid`, in the order of the
source: the shape roll (used for `RANDOM` only), the size roll, the edge roll,
the coordinate along the edge, the normalised aim direction (the result of
`Vector2Normalize` on the jittered centre minus the position), the speed before
scaling, the rotation speed and the initial rotation. -/
structure AsteroidDraw where
  shapeRoll : Fin 3
  sizeRoll : Fin 3
  edgeRoll : Fin 4
  along : ℚ
  dir : Vector2
  speed : ℚ
  rotSpeed : ℚ
  rotation : ℚ

/-- The size `1 << roll` chosen by `init`. -/
def sizeOfRoll (r : Fin 3) : Size :=
  if r.val = 0 then .SMALL else if r.val = 1 then .MEDIUM else .LARGE

/-- The method `Asteroid::init` followed by the shape constructor that sets
`baseDamage`; `g` is the current value of `g_asteroidSpeedMultiplier`. -/
def Asteroid.init (d : AsteroidDraw) (g : ℚ) (baseDamage : Int) : Asteroid :=
  let size := sizeOfRoll d.sizeRoll
  let radius : ℚ := 16 * (size.val : ℚ)
  let position : Vector2 :=
    if d.edgeRoll.val = 0 then ⟨d.along, -radius⟩
    else if d.edgeRoll.val = 1 then ⟨(C_WIDTH : ℚ) + radius, d.along⟩
    else if d.edgeRoll.val = 2 then ⟨d.along, (C_HEIGHT : ℚ) + radius⟩
    else ⟨-radius, d.along⟩
  { transform := { position := position, rotation := d.rotation }
    physics := { velocity := Vector2Scale d.dir (d.speed * g), rotationSpeed := d.rotSpeed }
    size := size
    baseDamage := baseDamage }

/-- The factory `MakeAsteroid`; for `RANDOM` it rolls one of the three shapes. -/
def MakeAsteroid (d : AsteroidDraw) (g : ℚ) (shape : AsteroidShape) : Asteroid :=
  match shape with
  | .TRIANGLE => Asteroid.init d g 5
  | .SQUARE => Asteroid.init d g 10
  | .PENTAGON => Asteroid.init d g 15
  | .RANDOM =>
    if d.shapeRoll.val = 0 then Asteroid.init d g 5
    else if d.shapeRoll.val = 1 then Asteroid.init d g 10
    else Asteroid.init d g 15

/-! ## Projectiles -/

/-- The enumeration `WeaponType`, with its `COUNT` sentinel. -/
inductive WeaponType where
  | LASER
  | BULLET
  | TRIPLE
  | COUNT
deriving DecidableEq

def WeaponType.toInt : WeaponType → Int
  | .LASER => 0
  | .BULLET => 1
  | .TRIPLE => 2
  | .COUNT => 3

/-- The cast `static_cast<WeaponType>(n)` for the values the program casts. -/
def WeaponType.ofInt (n : Int) : WeaponType :=
  if n = 0 then .LASER else if n = 1 then .BULLET else if n = 2 then .TRIPLE else .COUNT

def LASER_DAMAGE : Int := 20
def BULLET_DAMAGE : Int := 40
def TRIPLE_DAMAGE : Int := 15

structure Projectile where
  transform : TransformA
  physics : Physics
  baseDamage : Int
  type : WeaponType
deriving DecidableEq

namespace Projectile

/-- The constructor `Projectile(pos, vel, dmg, wt)`. -/
def new (pos vel : Vector2) (dmg : Int) (wt : WeaponType) : Projectile :=
  { transform := { position := pos, rotation := 0 }
    physics := { velocity := vel, rotationSpeed := 0 }
    baseDamage := dmg
    type := wt }

def GetPosition (p : Projectile) : Vector2 := p.transform.position

def GetRadius (p : Projectile) : ℚ :=
  match p.type with
  | .BULLET => 5
  | .LASER => 2
  | .TRIPLE => 2
  | .COUNT => 0

def GetDamage (p : Projectile) : Int := p.baseDamage

/-- The method `Projectile::Update`: the moved projectile and the returned flag
(`true` means it left the screen rectangle). -/
def Update (p : Projectile) (dt : ℚ) : Projectile × Bool :=
  let pos := Vector2Add p.transform.position (Vector2Scale p.physics.velocity dt)
  let p1 := { p with transform := { p.transform with position := pos } }
  if pos.x < 0 ∨ pos.x > (C_WIDTH : ℚ) ∨ pos.y < 0 ∨ pos.y > (C_HEIGHT : ℚ) then (p1, true)
  else (p1, false)

end Projectile

def MakeProjectile (wt : WeaponType) (pos : Vector2) (speed : ℚ) : Projectile :=
  let vel : Vector2 := ⟨0, -speed⟩
  match wt with
  | .LASER => Projectile.new pos vel LASER_DAMAGE wt
  | .BULLET => Projectile.new pos vel BULLET_DAMAGE wt
  | .TRIPLE => Projectile.new pos vel TRIPLE_DAMAGE wt
  | .COUNT => Projectile.new pos vel 1 wt

/-! ## The ship -/

/-- The class `Ship` with the two fields `PlayerShip` adds.  The four fields
`fireRateLaser`, `fireRateBullet`, `spacingLaser`, `spacingBullet` are written by
the constructor only, so they are the constants below. -/
structure Ship where
  transform : TransformA
  hp : Int
  speed : ℚ
  alive : Bool
  textureWidth : Int
  scale : ℚ
deriving DecidableEq

def fireRateLaser : ℚ := 18
def fireRateBullet : ℚ := 22
def spacingLaser : ℚ := 40
def spacingBullet : ℚ := 20

/-- The held keys and the keys pressed in this frame. -/
structure Keys where
  W : Bool
  S : Bool
  A : Bool
  D : Bool
  SPACE : Bool
  R : Bool
  ONE : Bool
  TWO : Bool
  THREE : Bool
  FOUR : Bool
  TAB : Bool

namespace Ship

/-- The constructors `Ship(screenW, screenH)` and `PlayerShip(w, h)`; `texW` is
the width of the loaded texture. -/
def new (texW : Int) : Ship :=
  { transform := { position := ⟨(C_WIDTH : ℚ) * (1 / 2), (C_HEIGHT : ℚ) * (1 / 2)⟩, rotation := 0 }
    hp := 100
    speed := 250
    alive := true
    textureWidth := texW
    scale := 1 / 4 }

def TakeDamage (s : Ship) (dmg : Int) : Ship :=
  if !s.alive then s
  else
    let s1 := { s with hp := s.hp - dmg }
    if s1.hp ≤ 0 then { s1 with alive := false } else s1

def IsAlive (s : Ship) : Bool := s.alive

def GetPosition (s : Ship) : Vector2 := s.transform.position

def GetHP (s : Ship) : Int := s.hp

def GetFireRate (wt : WeaponType) : ℚ :=
  if wt = .LASER then fireRateLaser else fireRateBullet

def GetSpacing (wt : WeaponType) : ℚ :=
  if wt = .LASER then spacingLaser else spacingBullet

/-- The override `PlayerShip::GetRadius`. -/
def GetRadius (s : Ship) : ℚ := ((s.textureWidth : ℚ) * s.scale) * (1 / 2)

def setY (s : Ship) (y : ℚ) : Ship :=
  { s with transform := { s.transform with position := ⟨s.transform.position.x, y⟩ } }

def setX (s : Ship) (x : ℚ) : Ship :=
  { s with transform := { s.transform with position := ⟨x, s.transform.position.y⟩ } }

/-- The override `PlayerShip::Update`. -/
def Update (s : Ship) (k : Keys) (dt : ℚ) : Ship :=
  if s.alive then
    let s1 := if k.W then s.setY (s.transform.position.y - s.speed * dt) else s
    let s2 := if k.S then s1.setY (s1.transform.position.y + s1.speed * dt) else s1
    let s3 := if k.A then s2.setX (s2.transform.position.x - s2.speed * dt) else s2
    if k.D then s3.setX (s3.transform.position.x + s3.speed * dt) else s3
  else s.setY (s.transform.position.y + s.speed * dt)

end Ship

/-! ## The application -/

/-- What the program reads from its surroundings once: the width of the ship
texture and the values of `cosf` and `sinf` at the three angle offsets of the
triple shot. -/
structure Env where
  texW : Int
  cosOff : Fin 3 → ℚ
  sinOff : Fin 3 → ℚ

/-- The local variables of `Run` that live across frames, the members of
`Application`, and the global `g_asteroidSpeedMultiplier`. -/
structure State where
  player : Ship
  spawnTimer : ℚ
  spawnInterval : ℚ
  currentWeapon : WeaponType
  shotTimer : ℚ
  asteroids : List Asteroid
  projectiles : List Projectile
  score : Int
  currentShape : AsteroidShape
  g_asteroidSpeedMultiplier : ℚ

/-- The state before the first frame; `interval0` is the first draw of the
spawn interval. -/
def State.initial (env : Env) (interval0 : ℚ) : State :=
  { player := Ship.new env.texW
    spawnTimer := 0
    spawnInterval := interval0
    currentWeapon := .LASER
    shotTimer := 0
    asteroids := []
    projectiles := []
    score := 0
    currentShape := .RANDOM
    g_asteroidSpeedMultiplier := 1 }

def GetAsteroidSpeedMultiplier (score : Int) : ℚ :=
  if score ≥ 400 then 5
  else if score ≥ 300 then 3
  else if score ≥ 200 then 11 / 5
  else if score ≥ 100 then 8 / 5
  else 1

/-- Outcomes of the random calls of one iteration of the loop in
`SplitAsteroidToSmalls`: those of `MakeAsteroid`, `cosf` and `sinf` of the drawn
angle, and the drawn speed before scaling. -/
structure FragmentDraw where
  made : AsteroidDraw
  cosAngle : ℚ
  sinAngle : ℚ
  speed : ℚ

/-- One iteration of the loop of `SplitAsteroidToSmalls`: the asteroid pushed. -/
def makeSmall (destroyedAsteroid : Asteroid) (shape : AsteroidShape) (score : Int) (g : ℚ)
    (d : FragmentDraw) : Asteroid :=
  let small := MakeAsteroid d.made g shape
  let small := small.SetPosition destroyedAsteroid.GetPosition
  let small := small.SetSize .SMALL
  let speed := d.speed * GetAsteroidSpeedMultiplier score
  small.SetVelocity ⟨d.cosAngle * speed, d.sinAngle * speed⟩

/-- The method `SplitAsteroidToSmalls`, returning the new value of `asteroids`. -/
def SplitAsteroidToSmalls (asteroids : List Asteroid) (destroyedAsteroid : Asteroid)
    (shape : AsteroidShape) (score : Int) (g : ℚ) (d : Nat → FragmentDraw) : List Asteroid :=
  if destroyedAsteroid.GetSize ≠ Size.LARGE.val then asteroids
  else (List.range 4).foldl
    (fun acc i => acc ++ [makeSmall destroyedAsteroid shape score g (d i)]) asteroids

/-- Everything one frame reads: the frame time, the keys, and the outcomes of
the random draws (`splitDraws k i` serves iteration `i` of the `k`-th split of
the frame). -/
structure FrameInput where
  dt : ℚ
  keys : Keys
  restartInterval : ℚ
  spawnDraw : AsteroidDraw
  spawnIntervalDraw : ℚ
  splitDraws : Nat → Nat → FragmentDraw

/-! ### Restart, shape and weapon switches -/

/-- The block `Restart logic`. -/
def restartLogic (env : Env) (keyR : Bool) (intervalDraw : ℚ) (s : State) : State :=
  if !s.player.IsAlive && keyR then
    { s with
      player := Ship.new env.texW
      asteroids := []
      projectiles := []
      spawnTimer := 0
      spawnInterval := intervalDraw }
  else s

/-- The block `Asteroid shape switch`. -/
def shapeSwitch (k : Keys) (shape : AsteroidShape) : AsteroidShape :=
  let s1 := if k.ONE then AsteroidShape.TRIANGLE else shape
  let s2 := if k.TWO then AsteroidShape.SQUARE else s1
  let s3 := if k.THREE then AsteroidShape.PENTAGON else s2
  if k.FOUR then AsteroidShape.RANDOM else s3

/-- The block `Weapon switch`. -/
def weaponSwitch (keyTab : Bool) (w : WeaponType) : WeaponType :=
  if keyTab then WeaponType.ofInt ((w.toInt + 1) % WeaponType.COUNT.toInt) else w

/-! ### Shooting -/

/-- The body of the firing loop up to the decrement: the projectiles pushed by
one emission event. -/
def emit (env : Env) (player : Ship) (wt : WeaponType) (projSpeed : ℚ) : List Projectile :=
  let p0 := player.GetPosition
  let p : Vector2 := ⟨p0.x, p0.y - player.GetRadius⟩
  if wt = .TRIPLE then
    (List.finRange 3).map fun i =>
      let dir : Vector2 := ⟨0, -1⟩
      let cosA := env.cosOff i
      let sinA := env.sinOff i
      let rotatedDir : Vector2 := ⟨dir.x * cosA - dir.y * sinA, dir.x * sinA + dir.y * cosA⟩
      Projectile.new p (Vector2Scale rotatedDir projSpeed) TRIPLE_DAMAGE .TRIPLE
  else [MakeProjectile wt p projSpeed]

/-- Outcome of the firing loop; `events` counts its iterations. -/
structure FireResult where
  projectiles : List Projectile
  shotTimer : ℚ
  events : Nat

/-- The loop `while (shotTimer >= interval)`. -/
def fireLoop (env : Env) (player : Ship) (wt : WeaponType) (shotTimer : ℚ)
    (projectiles : List Projectile) (events : Nat) : FireResult :=
  if shotTimer ≥ 1 / Ship.GetFireRate wt then
    fireLoop env player wt (shotTimer - 1 / Ship.GetFireRate wt)
      (projectiles ++ emit env player wt (Ship.GetSpacing wt * Ship.GetFireRate wt)) (events + 1)
  else ⟨projectiles, shotTimer, events⟩
termination_by (⌊shotTimer * Ship.GetFireRate wt⌋).toNat
decreasing_by
  rename_i h
  have hr : (0 : ℚ) < Ship.GetFireRate wt := by
    unfold Ship.GetFireRate fireRateLaser fireRateBullet
    split <;> norm_num
  have h1 : (1 : ℚ) ≤ shotTimer * Ship.GetFireRate wt := by
    have := (div_le_iff₀ hr).mp h
    linarith
  have e : (shotTimer - 1 / Ship.GetFireRate wt) * Ship.GetFireRate wt
      = shotTimer * Ship.GetFireRate wt - 1 := by
    field_simp
  rw [e, Int.floor_sub_one]
  have h2 : (1 : ℤ) ≤ ⌊shotTimer * Ship.GetFireRate wt⌋ := Int.le_floor.mpr (by exact_mod_cast h1)
  omega

/-- The library function `fmodf` on exact numbers: `x` minus `y` times the
quotient truncated towards zero. -/
def fmodf (x y : ℚ) : ℚ :=
  x - y * (if 0 ≤ x / y then (⌊x / y⌋ : ℚ) else (⌈x / y⌉ : ℚ))

/-- The block `Shooting`. -/
def shooting (env : Env) (keySpace : Bool) (dt : ℚ) (s : State) : State × Nat :=
  if s.player.IsAlive && keySpace then
    let r := fireLoop env s.player s.currentWeapon (s.shotTimer + dt) s.projectiles 0
    ({ s with shotTimer := r.shotTimer, projectiles := r.projectiles }, r.events)
  else
    let maxInterval := 1 / Ship.GetFireRate s.currentWeapon
    if s.shotTimer > maxInterval then
      ({ s with shotTimer := fmodf s.shotTimer maxInterval }, 0)
    else (s, 0)
/-! ### Spawning and projectile motion -/

/-- The block `Spawn asteroids`. -/
def spawnAsteroids (d : AsteroidDraw) (intervalDraw : ℚ) (s : State) : State :=
  if s.spawnTimer ≥ s.spawnInterval ∧ s.asteroids.length < MAX_AST then
    let g := GetAsteroidSpeedMultiplier s.score
    { s with
      g_asteroidSpeedMultiplier := g
      asteroids := s.asteroids ++ [MakeAsteroid d g s.currentShape]
      spawnTimer := 0
      spawnInterval := intervalDraw }
  else s

/-- The block `Update projectiles`: `remove_if` with `Projectile::Update` as the
predicate, then `erase`. -/
def updateProjectiles (dt : ℚ) (projectiles : List Projectile) : List Projectile :=
  projectiles.filterMap fun p =>
    let r := p.Update dt
    if r.2 then none else some r.1

/-! ### Projectile-asteroid collisions -/

/-- The collision test of the projectile-asteroid pass. -/
def projectileHits (p : Projectile) (a : Asteroid) : Bool :=
  distanceLt p.GetPosition a.GetPosition (p.GetRadius + a.GetRadius)

/-- The inner loop over `ait`: position and value of the first asteroid, from
position `ait` on, that the projectile overlaps. -/
def scanAsteroids (p : Projectile) : List Asteroid → Nat → Option (Nat × Asteroid)
  | [], _ => none
  | a :: rest, ait => if projectileHits p a then some (ait, a) else scanAsteroids p rest (ait + 1)

/-- The variables the projectile-asteroid pass works on.  `splits` counts the
split events of the frame and `destroyed` records the asteroids erased, in
order; neither influences the other fields. -/
structure PassState where
  projectiles : List Projectile
  asteroids : List Asteroid
  score : Int
  splits : Nat
  destroyed : List Asteroid

/-- The body of the `if` inside the inner loop, for the projectile at `pit` and
the asteroid `a` found at `ait`. -/
def resolveHit (shape : AsteroidShape) (g : ℚ) (draws : Nat → Nat → FragmentDraw)
    (pit ait : Nat) (a : Asteroid) (r : PassState) : PassState :=
  let asteroids1 :=
    if a.GetSize = Size.LARGE.val then
      SplitAsteroidToSmalls r.asteroids a shape r.score g (draws r.splits)
    else r.asteroids
  { projectiles := r.projectiles.eraseIdx pit
    asteroids := asteroids1.eraseIdx ait
    score := r.score + a.GetDamage
    splits := if a.GetSize = Size.LARGE.val then r.splits + 1 else r.splits
    destroyed := r.destroyed ++ [a] }

/-- The outer loop over `pit` of the block `Projectile-Asteroid collisions`. -/
def collisionLoop (shape : AsteroidShape) (g : ℚ) (draws : Nat → Nat → FragmentDraw)
    (pit : Nat) (r : PassState) : PassState :=
  if h : pit < r.projectiles.length then
    match scanAsteroids (r.projectiles.get ⟨pit, h⟩) r.asteroids 0 with
    | some (ait, a) => collisionLoop shape g draws pit (resolveHit shape g draws pit ait a r)
    | none => collisionLoop shape g draws (pit + 1) r
  else r
termination_by r.projectiles.length - pit
decreasing_by
  · simp only [resolveHit, List.length_eraseIdx, h, if_true]
    omega
  · omega

/-- The block `Projectile-Asteroid collisions` on the state. -/
def projectileAsteroidPass (draws : Nat → Nat → FragmentDraw) (s : State) : State :=
  let r := collisionLoop s.currentShape s.g_asteroidSpeedMultiplier draws 0
    ⟨s.projectiles, s.asteroids, s.score, 0, []⟩
  { s with projectiles := r.projectiles, asteroids := r.asteroids, score := r.score }

/-! ### Asteroid-ship collisions -/

/-- The collision test of the asteroid-ship pass. -/
def shipHits (player : Ship) (a : Asteroid) : Bool :=
  distanceLt player.GetPosition a.GetPosition (player.GetRadius + a.GetRadius)

/-- Outcome of the asteroid-ship pass: the ship, the asteroids kept, and a record
of the asteroids removed for hitting the ship and for leaving play. -/
structure ShipPassResult where
  player : Ship
  asteroids : List Asteroid
  hit : List Asteroid
  expired : List Asteroid

/-- The block `Asteroid-Ship collisions`: `remove_if` applies the lambda
`remove_collision` to each asteroid once, in order, and `erase` drops the marked
ones.  The lambda changes the ship (`TakeDamage`) and the asteroid (`Update`). -/
def shipPass (dt : ℚ) : Ship → List Asteroid → ShipPassResult
  | player, [] => ⟨player, [], [], []⟩
  | player, a :: rest =>
    if player.IsAlive && shipHits player a then
      let r := shipPass dt (player.TakeDamage a.GetDamage) rest
      { r with hit := a :: r.hit }
    else
      let u := a.Update dt
      let r := shipPass dt player rest
      if !u.2 then { r with expired := a :: r.expired }
      else { r with asteroids := u.1 :: r.asteroids }

/-- The block `Asteroid-Ship collisions` on the state. -/
def asteroidShipPass (dt : ℚ) (s : State) : State :=
  let r := shipPass dt s.player s.asteroids
  { s with player := r.player, asteroids := r.asteroids }

/-! ### One frame -/

/-- The start of an iteration of the `while` loop of `Run`, up to the block
`Weapon switch`. -/
def frameInputPhase (env : Env) (i : FrameInput) (s : State) : State :=
  let s := { s with spawnTimer := s.spawnTimer + i.dt }
  let s := { s with player := s.player.Update i.keys i.dt }
  let s := restartLogic env i.keys.R i.restartInterval s
  let s := { s with currentShape := shapeSwitch i.keys s.currentShape }
  { s with currentWeapon := weaponSwitch i.keys.TAB s.currentWeapon }

/-- Number of iterations of the firing loop in the frame. -/
def frameEvents (env : Env) (i : FrameInput) (s : State) : Nat :=
  (shooting env i.keys.SPACE i.dt (frameInputPhase env i s)).2

/-- One iteration of the `while` loop of `Run`, without the drawing. -/
def frame (env : Env) (i : FrameInput) (s : State) : State :=
  let s := frameInputPhase env i s
  let s := (shooting env i.keys.SPACE i.dt s).1
  let s := spawnAsteroids i.spawnDraw i.spawnIntervalDraw s
  let s := { s with projectiles := updateProjectiles i.dt s.projectiles }
  let s := projectileAsteroidPass i.splitDraws s
  asteroidShipPass i.dt s

/-- States the program can be in at the end of a frame (or before the first):
the frame times are the non-negative values `GetFrameTime` returns. -/
inductive Reachable (env : Env) : State → Prop where
  | start (interval0 : ℚ) : Reachable env (State.initial env interval0)
  | step (i : FrameInput) (s : State) : 0 ≤ i.dt → Reachable env s → Reachable env (frame env i s)

/-! ## Auxiliary definitions for the statements -/

/-- The facts about a ship that any run of `TakeDamage` calls with amounts
10, 20 or 30 keeps, where `acc` is the damage dealt so far. -/
def ShipInv (s : Ship) (acc : Int) : Prop :=
  (s.alive = true → s.hp = 100 - acc ∧ 0 < s.hp) ∧
  (s.alive = false → 100 ≤ acc ∧ s.hp ≤ 0) ∧
  (10 ∣ s.hp ∧ -20 ≤ s.hp ∧ s.hp ≤ 100)

/-- A laser bolt at the origin. -/
def sampleLaser : Projectile := Projectile.new ⟨0, 0⟩ ⟨0, -720⟩ LASER_DAMAGE .LASER

/-- A small asteroid centred at `(x, 0)`. -/
def sampleSmall (x : ℚ) : Asteroid :=
  { transform := { position := ⟨x, 0⟩, rotation := 0 }
    physics := { velocity := ⟨0, 125⟩, rotationSpeed := 50 }
    size := .SMALL
    baseDamage := 5 }

/-- A state with a dead ship, two asteroids, one projectile and score 70. -/
def deadState : State :=
  { player := { Ship.new 256 with hp := -10, alive := false }
    spawnTimer := 3 / 10
    spawnInterval := 2
    currentWeapon := .BULLET
    shotTimer := 0
    asteroids := [sampleSmall 18, sampleSmall 400]
    projectiles := [sampleLaser]
    score := 70
    currentShape := .RANDOM
    g_asteroidSpeedMultiplier := 1 }

/-- The pass state with one more projectile in front of the others. -/
def PassState.keep (p : Projectile) (r : PassState) : PassState :=
  { r with projectiles := p :: r.projectiles }

/-- The asteroids a resolved collision with `a` appends: the four pushed by
`SplitAsteroidToSmalls` when `a` is large, none otherwise. -/
def fragments (a : Asteroid) (shape : AsteroidShape) (score : Int) (g : ℚ)
    (d : Nat → FragmentDraw) : List Asteroid :=
  if a.GetSize = Size.LARGE.val then
    [makeSmall a shape score g (d 0), makeSmall a shape score g (d 1),
      makeSmall a shape score g (d 2), makeSmall a shape score g (d 3)]
  else []

/-- Number of large asteroids in a collection. -/
def countLarge (l : List Asteroid) : Nat := l.countP fun a => decide (a.size = Size.LARGE)

/-- A large asteroid centred at `(0, y)`. -/
def sampleLarge (y : ℚ) : Asteroid :=
  { transform := { position := ⟨0, y⟩, rotation := 0 }
    physics := { velocity := ⟨0, 125⟩, rotationSpeed := 50 }
    size := .LARGE
    baseDamage := 10 }

/-- Draws of one `MakeAsteroid`: a large asteroid on the top edge at `x = 800`
aimed straight down. -/
def sampleAsteroidDraw : AsteroidDraw :=
  { shapeRoll := 1, sizeRoll := 2, edgeRoll := 0, along := 800, dir := ⟨0, 1⟩, speed := 125,
    rotSpeed := 50, rotation := 0 }

/-- Draws of the split loop: every fragment leaves straight down at speed 150. -/
def sampleSplitDraws : Nat → Nat → FragmentDraw :=
  fun _ _ => { made := sampleAsteroidDraw, cosAngle := 0, sinAngle := 1, speed := 150 }

/-- A medium asteroid centred at `(x, y)` that moves down at speed 125. -/
def sampleMedium (x y : ℚ) : Asteroid :=
  { transform := { position := ⟨x, y⟩, rotation := 0 }
    physics := { velocity := ⟨0, 125⟩, rotationSpeed := 50 }
    size := .MEDIUM
    baseDamage := 10 }

/-- A concrete environment: a ship texture 256 wide, and `cosf`, `sinf` of the
offsets -15°, 0°, 15° to three decimals. -/
def sampleEnv : Env :=
  { texW := 256
    cosOff := fun i => if i.val = 1 then 1 else 483 / 500
    sinOff := fun i => if i.val = 0 then -259 / 1000 else if i.val = 1 then 0 else 259 / 1000 }

/-- No key held or pressed. -/
def noKeys : Keys :=
  { W := false, S := false, A := false, D := false, SPACE := false, R := false, ONE := false,
    TWO := false, THREE := false, FOUR := false, TAB := false }

/-- A frame input with the given frame time and keys and the sample draws. -/
def sampleFrame (dt : ℚ) (k : Keys) : FrameInput :=
  { dt := dt, keys := k, restartInterval := 1 / 2, spawnDraw := sampleAsteroidDraw,
    spawnIntervalDraw := 1 / 2, splitDraws := sampleSplitDraws }

/-- The frame of 1/20 s with the fire key held. -/
def holdFireFrame : FrameInput := sampleFrame (1 / 20) { noKeys with SPACE := true }

/-- The frame of 1/24 s with the fire key held and the weapon key pressed. -/
def switchFireFrame : FrameInput :=
  sampleFrame (1 / 24) { noKeys with SPACE := true, TAB := true }

theorem shipInv_takeDamage (s : Ship) (acc d : Int) (hd : d = 10 ∨ d = 20 ∨ d = 30)
    (h : ShipInv s acc) : ShipInv (s.TakeDamage d) (acc + d) := by
  obtain ⟨h1, h2, h3, h4, h5⟩ := h
  unfold Ship.TakeDamage
  cases hs : s.alive with
  | false =>
    have := h2 hs
    simp only [Bool.not_false, if_true]
    exact ⟨fun h => by simp [hs] at h, fun _ => ⟨by omega, by omega⟩, h3, h4, h5⟩
  | true =>
    obtain ⟨e1, e2⟩ := h1 hs
    simp only [Bool.not_true, Bool.false_eq_true, if_false]
    by_cases hle : s.hp - d ≤ 0
    · simp only [hle, if_true]
      refine ⟨fun h => by simp at h, fun _ => ⟨?_, ?_⟩, ?_, ?_, ?_⟩ <;> dsimp only <;> omega
    · simp only [hle, if_false]
      refine ⟨fun _ => ⟨?_, ?_⟩, fun h => by simp [hs] at h, ?_, ?_, ?_⟩ <;> dsimp only <;> omega

theorem takeDamage_run (ds : List Int) (hds : ∀ d ∈ ds, d = 10 ∨ d = 20 ∨ d = 30) :
    ∀ (s : Ship) (acc : Int), ShipInv s acc →
      ShipInv (ds.foldl Ship.TakeDamage s) (acc + ds.sum) := by
  induction ds with
  | nil => intro s acc h; simpa using h
  | cons d ds ih =>
    intro s acc h
    have hd : d = 10 ∨ d = 20 ∨ d = 30 := hds d (List.mem_cons_self _ _)
    have hrest : ∀ e ∈ ds, e = 10 ∨ e = 20 ∨ e = 30 := fun e he => hds e (List.mem_cons_of_mem _ he)
    have key := ih hrest (s.TakeDamage d) (acc + d) (shipInv_takeDamage s acc d hd h)
    simpa [List.foldl_cons, List.sum_cons, add_assoc] using key

theorem shipInv_new (texW : Int) : ShipInv (Ship.new texW) 0 := by
  simp only [ShipInv, Ship.new]
  refine ⟨fun _ => ⟨by norm_num, by norm_num⟩, fun h => by simp at h, by norm_num, by norm_num,
    by norm_num⟩

/-- C3: after any sequence of `TakeDamage` calls with amounts 10, 20 or 30 on a
freshly constructed ship, `alive` is false exactly when the amounts sum to at
least 100; and a `TakeDamage` call on a ship that is not alive leaves it not
alive. -/
theorem C3_alive_iff_damage_lt_100 (texW : Int) (ds : List Int)
    (hds : ∀ d ∈ ds, d = 10 ∨ d = 20 ∨ d = 30) :
    ((ds.foldl Ship.TakeDamage (Ship.new texW)).alive = false ↔ 100 ≤ ds.sum) ∧
    (∀ (s : Ship) (d : Int), s.alive = false → (s.TakeDamage d).alive = false) := by
  have h := takeDamage_run ds hds (Ship.new texW) 0 (shipInv_new texW)
  simp only [zero_add] at h
  refine ⟨⟨fun ha => (h.2.1 ha).1, fun hsum => ?_⟩, fun s d hs => by simp [Ship.TakeDamage, hs]⟩
  cases ha : (ds.foldl Ship.TakeDamage (Ship.new texW)).alive with
  | false => rfl
  | true =>
    have := h.1 ha
    omega

/-- C3 at the calls 30, 30, 30, 30: the ship is dead, the sum being 120. -/
theorem C3_alive_iff_damage_lt_100_witness :
    (([30, 30, 30, 30] : List Int).foldl Ship.TakeDamage (Ship.new 256)).alive = false ∧
    ((Ship.new 256).TakeDamage 30).alive = true :=
  ⟨(C3_alive_iff_damage_lt_100 256 [30, 30, 30, 30] (by simp)).1.mpr (by decide),
    by simp [Ship.TakeDamage, Ship.new]⟩

/-- C8 as stated fails: after the calls 30, 30, 30, 30 on a fresh ship the hit
points are -20. -/
theorem C8_hp_negative :
    (([30, 30, 30, 30] : List Int).foldl Ship.TakeDamage (Ship.new 256)).hp = -20 ∧
    ¬ (0 ≤ (([30, 30, 30, 30] : List Int).foldl Ship.TakeDamage (Ship.new 256)).hp) := by
  simp [Ship.TakeDamage, Ship.new]

/-- C8 amended: after any sequence of `TakeDamage` calls with amounts 10, 20 or
30 on a fresh ship the hit points lie between -20 and 100, they are positive
while the ship is alive and at most 0 once it is not. -/
theorem C8_hp_bounds (texW : Int) (ds : List Int)
    (hds : ∀ d ∈ ds, d = 10 ∨ d = 20 ∨ d = 30) :
    -20 ≤ (ds.foldl Ship.TakeDamage (Ship.new texW)).hp ∧
    (ds.foldl Ship.TakeDamage (Ship.new texW)).hp ≤ 100 ∧
    ((ds.foldl Ship.TakeDamage (Ship.new texW)).alive = true ↔
      0 < (ds.foldl Ship.TakeDamage (Ship.new texW)).hp) := by
  have h := takeDamage_run ds hds (Ship.new texW) 0 (shipInv_new texW)
  refine ⟨h.2.2.2.1, h.2.2.2.2, fun ha => (h.1 ha).2, fun hpos => ?_⟩
  cases ha : (ds.foldl Ship.TakeDamage (Ship.new texW)).alive with
  | true => rfl
  | false =>
    have := (h.2.1 ha).2
    omega

/-- C8 amended, at the calls 30, 30, 30, 30. -/
theorem C8_hp_bounds_witness :
    -20 ≤ (([30, 30, 30, 30] : List Int).foldl Ship.TakeDamage (Ship.new 256)).hp ∧
    (([30, 30, 30, 30] : List Int).foldl Ship.TakeDamage (Ship.new 256)).hp ≤ 100 ∧
    ((([30, 30, 30, 30] : List Int).foldl Ship.TakeDamage (Ship.new 256)).alive = true ↔
      0 < (([30, 30, 30, 30] : List Int).foldl Ship.TakeDamage (Ship.new 256)).hp) :=
  C8_hp_bounds 256 [30, 30, 30, 30] (by simp)

/-! ### Restart -/

/-- C5: with the ship dead and the restart key pressed, the restart block leaves
no asteroid and no projectile, sets the spawn timer to 0 and keeps the score;
with the ship alive it changes none of these four fields, whatever the key. -/
theorem C5_restart_effect (env : Env) (keyR : Bool) (intervalDraw : ℚ) (s : State) :
    (s.player.IsAlive = false → keyR = true →
      (restartLogic env keyR intervalDraw s).asteroids = [] ∧
      (restartLogic env keyR intervalDraw s).projectiles = [] ∧
      (restartLogic env keyR intervalDraw s).spawnTimer = 0 ∧
      (restartLogic env keyR intervalDraw s).score = s.score) ∧
    (s.player.IsAlive = true →
      (restartLogic env keyR intervalDraw s).asteroids = s.asteroids ∧
      (restartLogic env keyR intervalDraw s).projectiles = s.projectiles ∧
      (restartLogic env keyR intervalDraw s).spawnTimer = s.spawnTimer ∧
      (restartLogic env keyR intervalDraw s).score = s.score) := by
  constructor
  · intro hdead hkey
    simp [restartLogic, hdead, hkey]
  · intro halive
    simp [restartLogic, halive]

/-- C5 on a state with a dead ship, and on the initial state, whose ship is
alive. -/
theorem C5_restart_effect_witness :
    ((restartLogic ⟨256, fun _ => 1, fun _ => 0⟩ true (1 / 2) deadState).asteroids = [] ∧
      (restartLogic ⟨256, fun _ => 1, fun _ => 0⟩ true (1 / 2) deadState).projectiles = [] ∧
      (restartLogic ⟨256, fun _ => 1, fun _ => 0⟩ true (1 / 2) deadState).spawnTimer = 0 ∧
      (restartLogic ⟨256, fun _ => 1, fun _ => 0⟩ true (1 / 2) deadState).score
        = deadState.score) ∧
    deadState.asteroids ≠ [] ∧ deadState.score = 70 :=
  ⟨(C5_restart_effect ⟨256, fun _ => 1, fun _ => 0⟩ true (1 / 2) deadState).1
      (by simp [deadState, Ship.IsAlive]) rfl,
    by simp [deadState], by simp [deadState]⟩

/-! ### Difficulty -/

/-- C6: the speed multiplier is 5 from score 400 on, 3 from 300 to 399, 2.2
from 200 to 299, 1.6 from 100 to 199 and 1 below 100. -/
theorem C6_speed_multiplier (score : Int) :
    (400 ≤ score → GetAsteroidSpeedMultiplier score = 5) ∧
    (300 ≤ score → score < 400 → GetAsteroidSpeedMultiplier score = 3) ∧
    (200 ≤ score → score < 300 → GetAsteroidSpeedMultiplier score = 11 / 5) ∧
    (100 ≤ score → score < 200 → GetAsteroidSpeedMultiplier score = 8 / 5) ∧
    (score < 100 → GetAsteroidSpeedMultiplier score = 1) := by
  unfold GetAsteroidSpeedMultiplier
  refine ⟨fun h => ?_, fun h h1 => ?_, fun h h1 => ?_, fun h h1 => ?_, fun h => ?_⟩
  · rw [if_pos h]
  · rw [if_neg (by omega), if_pos h]
  · rw [if_neg (by omega), if_neg (by omega), if_pos h]
  · rw [if_neg (by omega), if_neg (by omega), if_neg (by omega), if_pos h]
  · rw [if_neg (by omega), if_neg (by omega), if_neg (by omega), if_neg (by omega)]

/-- C6 at the scores 250, 450 and 50 of scenario C. -/
theorem C6_speed_multiplier_witness :
    GetAsteroidSpeedMultiplier 250 = 11 / 5 ∧ GetAsteroidSpeedMultiplier 450 = 5 ∧
    GetAsteroidSpeedMultiplier 50 = 1 :=
  ⟨(C6_speed_multiplier 250).2.2.1 (by norm_num) (by norm_num),
    (C6_speed_multiplier 450).1 (by norm_num),
    (C6_speed_multiplier 50).2.2.2.2 (by norm_num)⟩

/-! ### The collision test -/

theorem scanAsteroids_none (p : Projectile) (l : List Asteroid) :
    ∀ n, scanAsteroids p l n = none ↔ ∀ a ∈ l, projectileHits p a = false := by
  induction l with
  | nil => intro n; simp [scanAsteroids]
  | cons a rest ih =>
    intro n
    unfold scanAsteroids
    cases h : projectileHits p a with
    | true => simp [h]
    | false => simp [h, ih (n + 1)]

theorem scanAsteroids_some (p : Projectile) (l : List Asteroid) :
    ∀ n i a, scanAsteroids p l n = some (i, a) ↔
      ∃ front back, l = front ++ a :: back ∧ i = n + front.length ∧
        (∀ b ∈ front, projectileHits p b = false) ∧ projectileHits p a = true := by
  induction l with
  | nil => intro n i a; simp [scanAsteroids]
  | cons c rest ih =>
    intro n i a
    unfold scanAsteroids
    cases h : projectileHits p c with
    | true =>
      simp only [if_true, Option.some.injEq, Prod.mk.injEq]
      constructor
      · rintro ⟨rfl, rfl⟩
        exact ⟨[], rest, rfl, by simp, by simp, h⟩
      · rintro ⟨front, back, e, hi, hf, ha⟩
        cases front with
        | nil =>
          simp only [List.nil_append, List.cons.injEq] at e
          exact ⟨by simp [hi], e.1⟩
        | cons f front =>
          simp only [List.cons_append, List.cons.injEq] at e
          have := hf f (List.mem_cons_self _ _)
          rw [← e.1, h] at this
          exact absurd this (by simp)
    | false =>
      simp only [Bool.false_eq_true, if_false]
      rw [ih (n + 1) i a]
      constructor
      · rintro ⟨front, back, e, hi, hf, ha⟩
        refine ⟨c :: front, back, by simp [e], by simp [hi]; omega, ?_, ha⟩
        intro b hb
        rcases List.mem_cons.mp hb with rfl | hb
        · exact h
        · exact hf b hb
      · rintro ⟨front, back, e, hi, hf, ha⟩
        cases front with
        | nil =>
          simp only [List.nil_append, List.cons.injEq] at e
          rw [e.1, ha] at h
          exact absurd h (by simp)
        | cons f front =>
          simp only [List.cons_append, List.cons.injEq] at e
          refine ⟨front, back, e.2, by simp at hi; omega, ?_, ha⟩
          intro b hb
          exact hf b (List.mem_cons_of_mem _ hb)

/-- A projectile in front of the position the outer loop works at is carried
through unchanged. -/
theorem collisionLoop_keep (shape : AsteroidShape) (g : ℚ) (draws : Nat → Nat → FragmentDraw)
    (p : Projectile) :
    ∀ (n pit : Nat) (r : PassState), r.projectiles.length - pit = n →
      collisionLoop shape g draws (pit + 1) (r.keep p)
        = (collisionLoop shape g draws pit r).keep p := by
  intro n
  induction n with
  | zero =>
    intro pit r hn
    have h1 : ¬ pit < r.projectiles.length := by omega
    have h2 : ¬ pit + 1 < (r.keep p).projectiles.length := by
      simp [PassState.keep]; omega
    rw [collisionLoop, dif_neg h2, collisionLoop, dif_neg h1]
  | succ n ih =>
    intro pit r hn
    have h1 : pit < r.projectiles.length := by omega
    have h2 : pit + 1 < (r.keep p).projectiles.length := by
      simp [PassState.keep]; omega
    rw [collisionLoop, dif_pos h2]
    conv_rhs => rw [collisionLoop, dif_pos h1]
    have hget : (r.keep p).projectiles.get ⟨pit + 1, h2⟩ = r.projectiles.get ⟨pit, h1⟩ := by
      simp [PassState.keep]
    rw [hget]
    have hast : (r.keep p).asteroids = r.asteroids := rfl
    rw [hast]
    cases hs : scanAsteroids (r.projectiles.get ⟨pit, h1⟩) r.asteroids 0 with
    | none =>
      simp only []
      exact ih (pit + 1) r (by omega)
    | some v =>
      obtain ⟨ait, a⟩ := v
      simp only []
      have e : resolveHit shape g draws (pit + 1) ait a (r.keep p)
          = (resolveHit shape g draws pit ait a r).keep p := by
        simp [resolveHit, PassState.keep]
      rw [e]
      exact ih pit _ (by simp [resolveHit, List.length_eraseIdx, h1]; omega)

theorem getSize_eq_large (a : Asteroid) : a.GetSize = Size.LARGE.val ↔ a.size = Size.LARGE := by
  unfold Asteroid.GetSize
  cases a.size <;> simp [Size.val]

theorem split_eq_append (l : List Asteroid) (a : Asteroid) (shape : AsteroidShape) (score : Int)
    (g : ℚ) (d : Nat → FragmentDraw) :
    (if a.GetSize = Size.LARGE.val then SplitAsteroidToSmalls l a shape score g d else l)
      = l ++ fragments a shape score g d := by
  unfold fragments SplitAsteroidToSmalls
  by_cases h : a.GetSize = Size.LARGE.val
  · simp [h, List.range_succ]
  · simp [h]

theorem resolveHit_eq (shape : AsteroidShape) (g : ℚ) (draws : Nat → Nat → FragmentDraw)
    (p : Projectile) (ps : List Projectile) (front back : List Asteroid) (a : Asteroid)
    (sc : Int) (k : Nat) (log : List Asteroid) :
    resolveHit shape g draws 0 front.length a ⟨p :: ps, front ++ a :: back, sc, k, log⟩
      = ⟨ps, front ++ back ++ fragments a shape sc g (draws k), sc + a.GetDamage,
          if a.GetSize = Size.LARGE.val then k + 1 else k, log ++ [a]⟩ := by
  unfold resolveHit
  simp only [split_eq_append, List.eraseIdx_cons_zero]
  congr 1
  rw [List.eraseIdx_append_of_lt_length (by simp)]
  congr 1
  rw [List.eraseIdx_append_of_length_le (le_refl _)]
  simp

/-- The outer loop on a first projectile that overlaps no asteroid. -/
theorem collisionLoop_miss (shape : AsteroidShape) (g : ℚ) (draws : Nat → Nat → FragmentDraw)
    (p : Projectile) (ps : List Projectile) (l : List Asteroid) (sc : Int) (k : Nat)
    (log : List Asteroid) (hmiss : ∀ a ∈ l, projectileHits p a = false) :
    collisionLoop shape g draws 0 ⟨p :: ps, l, sc, k, log⟩
      = (collisionLoop shape g draws 0 ⟨ps, l, sc, k, log⟩).keep p := by
  rw [collisionLoop, dif_pos (by simp)]
  have hs : scanAsteroids p l 0 = none := (scanAsteroids_none p l 0).mpr hmiss
  simp only [List.get_eq_getElem, List.getElem_cons_zero, hs]
  exact collisionLoop_keep shape g draws p _ 0 ⟨ps, l, sc, k, log⟩ rfl

/-- The outer loop on a first projectile whose first overlapped asteroid is `a`. -/
theorem collisionLoop_hit (shape : AsteroidShape) (g : ℚ) (draws : Nat → Nat → FragmentDraw)
    (p : Projectile) (ps : List Projectile) (front back : List Asteroid) (a : Asteroid)
    (sc : Int) (k : Nat) (log : List Asteroid)
    (hfront : ∀ b ∈ front, projectileHits p b = false) (ha : projectileHits p a = true) :
    collisionLoop shape g draws 0 ⟨p :: ps, front ++ a :: back, sc, k, log⟩
      = collisionLoop shape g draws 0
          ⟨ps, front ++ back ++ fragments a shape sc g (draws k), sc + a.GetDamage,
            if a.GetSize = Size.LARGE.val then k + 1 else k, log ++ [a]⟩ := by
  rw [collisionLoop, dif_pos (by simp)]
  have hs : scanAsteroids p (front ++ a :: back) 0 = some (front.length, a) :=
    (scanAsteroids_some p _ 0 front.length a).mpr ⟨front, back, rfl, by simp, hfront, ha⟩
  simp only [List.get_eq_getElem, List.getElem_cons_zero, hs]
  rw [resolveHit_eq]

/-- Either no asteroid overlaps the projectile or there is a first one. -/
theorem first_overlap (p : Projectile) (l : List Asteroid) :
    (∀ a ∈ l, projectileHits p a = false) ∨
    ∃ front a back, l = front ++ a :: back ∧ (∀ b ∈ front, projectileHits p b = false) ∧
      projectileHits p a = true := by
  cases h : scanAsteroids p l 0 with
  | none => exact Or.inl ((scanAsteroids_none p l 0).mp h)
  | some v =>
    obtain ⟨i, a⟩ := v
    obtain ⟨front, back, e, _, hf, ha⟩ := (scanAsteroids_some p l 0 i a).mp h
    exact Or.inr ⟨front, a, back, e, hf, ha⟩

theorem makeSmall_props (a : Asteroid) (shape : AsteroidShape) (score : Int) (g : ℚ)
    (d : FragmentDraw) :
    (makeSmall a shape score g d).size = Size.SMALL ∧
    (makeSmall a shape score g d).GetSize = 1 ∧
    (makeSmall a shape score g d).GetRadius = 16 ∧
    (makeSmall a shape score g d).GetPosition = a.GetPosition := by
  simp [makeSmall, Asteroid.SetVelocity, Asteroid.SetSize, Asteroid.SetPosition,
    Asteroid.GetSize, Asteroid.GetRadius, Asteroid.GetPosition, Size.val]

theorem fragments_large (a : Asteroid) (shape : AsteroidShape) (score : Int) (g : ℚ)
    (d : Nat → FragmentDraw) (h : a.size = Size.LARGE) :
    fragments a shape score g d =
      [makeSmall a shape score g (d 0), makeSmall a shape score g (d 1),
        makeSmall a shape score g (d 2), makeSmall a shape score g (d 3)] := by
  unfold fragments
  rw [if_pos ((getSize_eq_large a).mpr h)]

theorem fragments_not_large (a : Asteroid) (shape : AsteroidShape) (score : Int) (g : ℚ)
    (d : Nat → FragmentDraw) (h : a.size ≠ Size.LARGE) : fragments a shape score g d = [] := by
  unfold fragments
  rw [if_neg (fun h1 => h ((getSize_eq_large a).mp h1))]

theorem mem_fragments_small (a : Asteroid) (shape : AsteroidShape) (score : Int) (g : ℚ)
    (d : Nat → FragmentDraw) : ∀ f ∈ fragments a shape score g d, f.size = Size.SMALL := by
  intro f hf
  unfold fragments at hf
  split at hf
  · simp only [List.mem_cons, List.mem_singleton, List.not_mem_nil, or_false] at hf
    rcases hf with rfl | rfl | rfl | rfl <;> exact (makeSmall_props _ _ _ _ _).1
  · simp at hf

theorem countLarge_fragments (a : Asteroid) (shape : AsteroidShape) (score : Int) (g : ℚ)
    (d : Nat → FragmentDraw) : countLarge (fragments a shape score g d) = 0 := by
  unfold countLarge
  rw [List.countP_eq_zero]
  intro f hf
  simp [mem_fragments_small a shape score g d f hf]

theorem length_fragments (a : Asteroid) (shape : AsteroidShape) (score : Int) (g : ℚ)
    (d : Nat → FragmentDraw) :
    (fragments a shape score g d).length = 4 * countLarge [a] := by
  by_cases h : a.size = Size.LARGE
  · rw [fragments_large a shape score g d h]
    simp [countLarge, h]
  · rw [fragments_not_large a shape score g d h]
    simp [countLarge, h]

theorem countLarge_append (l1 l2 : List Asteroid) :
    countLarge (l1 ++ l2) = countLarge l1 + countLarge l2 := by
  simp [countLarge, List.countP_append]

theorem countLarge_cons (a : Asteroid) (l : List Asteroid) :
    countLarge (a :: l) = countLarge [a] + countLarge l := by
  simp [countLarge, List.countP_cons]
  omega

theorem countLarge_single_le (a : Asteroid) : countLarge [a] ≤ 1 := by
  simp only [countLarge, List.countP_cons, List.countP_nil]
  split <;> omega

/-- Totals of the outer loop started at the first projectile. -/
theorem collisionLoop_totals (shape : AsteroidShape) (g : ℚ) (draws : Nat → Nat → FragmentDraw)
    (ps : List Projectile) :
    ∀ (l : List Asteroid) (sc : Int) (k : Nat) (log : List Asteroid),
      (collisionLoop shape g draws 0 ⟨ps, l, sc, k, log⟩).projectiles.Sublist ps ∧
      (collisionLoop shape g draws 0 ⟨ps, l, sc, k, log⟩).projectiles.length
        + (collisionLoop shape g draws 0 ⟨ps, l, sc, k, log⟩).destroyed.length
        = ps.length + log.length ∧
      (collisionLoop shape g draws 0 ⟨ps, l, sc, k, log⟩).score
        + (log.map Asteroid.GetDamage).sum
        = sc + ((collisionLoop shape g draws 0 ⟨ps, l, sc, k, log⟩).destroyed.map
            Asteroid.GetDamage).sum ∧
      (collisionLoop shape g draws 0 ⟨ps, l, sc, k, log⟩).asteroids.length
        + 3 * countLarge (collisionLoop shape g draws 0 ⟨ps, l, sc, k, log⟩).asteroids
        ≤ l.length + 3 * countLarge l ∧
      (collisionLoop shape g draws 0 ⟨ps, l, sc, k, log⟩).asteroids.length
        + (collisionLoop shape g draws 0 ⟨ps, l, sc, k, log⟩).destroyed.length
        + 4 * countLarge log
        = l.length + log.length
          + 4 * countLarge (collisionLoop shape g draws 0 ⟨ps, l, sc, k, log⟩).destroyed := by
  induction ps with
  | nil =>
    intro l sc k log
    rw [collisionLoop, dif_neg (by simp)]
    simp
  | cons p ps ih =>
    intro l sc k log
    rcases first_overlap p l with hmiss | ⟨front, a, back, e, hf, ha⟩
    · rw [collisionLoop_miss shape g draws p ps l sc k log hmiss]
      obtain ⟨h1, h2, h3, h4, h5⟩ := ih l sc k log
      refine ⟨?_, ?_, ?_, ?_, ?_⟩
      · simpa [PassState.keep] using h1
      · simp only [PassState.keep, List.length_cons]
        omega
      · simpa [PassState.keep] using h3
      · simpa [PassState.keep] using h4
      · simpa [PassState.keep] using h5
    · subst e
      rw [collisionLoop_hit shape g draws p ps front back a sc k log hf ha]
      obtain ⟨h1, h2, h3, h4, h5⟩ := ih (front ++ back ++ fragments a shape sc g (draws k))
        (sc + a.GetDamage) (if a.GetSize = Size.LARGE.val then k + 1 else k) (log ++ [a])
      have hlen := length_fragments a shape sc g (draws k)
      have hcl := countLarge_fragments a shape sc g (draws k)
      have hle := countLarge_single_le a
      refine ⟨?_, ?_, ?_, ?_, ?_⟩
      · exact h1.trans (List.sublist_cons_self _ _)
      · simp only [List.length_append, List.length_cons, List.length_nil] at h2 ⊢
        omega
      · simp only [List.map_append, List.sum_append, List.map_cons, List.map_nil,
          List.sum_cons, List.sum_nil] at h3
        omega
      · simp only [List.length_append, countLarge_append, hlen, hcl, List.length_cons,
          countLarge_cons a back] at h4 ⊢
        omega
      · simp only [List.length_append, countLarge_append, hlen, List.length_cons,
          List.length_nil] at h5 ⊢
        omega

/-- C2: when the inner loop of the projectile-asteroid pass finds the asteroid
`a` at position `ait`, resolving the collision erases exactly that asteroid; if
`a` is large it also appends exactly four asteroids, each small (size 1, radius
16) and each at the position of `a`; if `a` is small or medium it appends none. -/
theorem C2_large_split (shape : AsteroidShape) (g : ℚ) (draws : Nat → Nat → FragmentDraw)
    (p : Projectile) (pit ait : Nat) (a : Asteroid) (r : PassState)
    (hscan : scanAsteroids p r.asteroids 0 = some (ait, a)) :
    r.asteroids[ait]? = some a ∧
    (a.size = Size.LARGE → ∃ f0 f1 f2 f3,
      (resolveHit shape g draws pit ait a r).asteroids
        = r.asteroids.eraseIdx ait ++ [f0, f1, f2, f3] ∧
      ∀ f ∈ [f0, f1, f2, f3], f.size = Size.SMALL ∧ f.GetSize = 1 ∧ f.GetRadius = 16 ∧
        f.GetPosition = a.GetPosition) ∧
    (a.size ≠ Size.LARGE →
      (resolveHit shape g draws pit ait a r).asteroids = r.asteroids.eraseIdx ait) := by
  obtain ⟨front, back, e, hi, _, _⟩ := (scanAsteroids_some p r.asteroids 0 ait a).mp hscan
  have hi2 : ait = front.length := by omega
  subst hi2
  have hlt : front.length < r.asteroids.length := by rw [e]; simp
  have hres : (resolveHit shape g draws pit front.length a r).asteroids
      = r.asteroids.eraseIdx front.length ++ fragments a shape r.score g (draws r.splits) := by
    unfold resolveHit
    simp only [split_eq_append]
    exact List.eraseIdx_append_of_lt_length hlt _
  refine ⟨by rw [e, List.getElem?_append_right (le_refl _)]; simp, fun hL => ?_, fun hL => ?_⟩
  · refine ⟨_, _, _, _, by rw [hres, fragments_large a shape r.score g _ hL], ?_⟩
    intro f hf
    simp only [List.mem_cons, List.mem_singleton, List.not_mem_nil, or_false] at hf
    rcases hf with rfl | rfl | rfl | rfl <;> exact makeSmall_props _ _ _ _ _
  · rw [hres, fragments_not_large a shape r.score g _ hL, List.append_nil]

/-- C9: the pass takes the projectiles in order, each against the asteroids as
the earlier collisions left them.  A projectile that overlaps no asteroid is
kept.  A projectile that overlaps one is removed with the first asteroid it
overlaps in collection order, the score grows by that asteroid's damage (10, 20
or 30 by size) and the pass goes on with the changed collection.  In total the
projectiles kept are a sublist of the given ones, as many projectiles are
removed as asteroids are destroyed, and the score grows by the sum of the
damages of the destroyed asteroids. -/
theorem C9_first_match_pass (shape : AsteroidShape) (g : ℚ) (draws : Nat → Nat → FragmentDraw)
    (p : Projectile) (ps : List Projectile) (l : List Asteroid) (sc : Int) (k : Nat) :
    ((∀ a ∈ l, projectileHits p a = false) →
      collisionLoop shape g draws 0 ⟨p :: ps, l, sc, k, []⟩
        = (collisionLoop shape g draws 0 ⟨ps, l, sc, k, []⟩).keep p) ∧
    (∀ front a back, l = front ++ a :: back →
      (∀ b ∈ front, projectileHits p b = false) → projectileHits p a = true →
      collisionLoop shape g draws 0 ⟨p :: ps, l, sc, k, []⟩
        = collisionLoop shape g draws 0
            ⟨ps, front ++ back ++ fragments a shape sc g (draws k), sc + a.GetDamage,
              if a.GetSize = Size.LARGE.val then k + 1 else k, [a]⟩ ∧
      a.GetDamage = (match a.size with | .SMALL => 10 | .MEDIUM => 20 | .LARGE => 30)) ∧
    ((collisionLoop shape g draws 0 ⟨ps, l, sc, k, []⟩).projectiles.Sublist ps ∧
      ps.length - (collisionLoop shape g draws 0 ⟨ps, l, sc, k, []⟩).projectiles.length
        = (collisionLoop shape g draws 0 ⟨ps, l, sc, k, []⟩).destroyed.length ∧
      (collisionLoop shape g draws 0 ⟨ps, l, sc, k, []⟩).score
        = sc + ((collisionLoop shape g draws 0 ⟨ps, l, sc, k, []⟩).destroyed.map
            Asteroid.GetDamage).sum) := by
  refine ⟨collisionLoop_miss shape g draws p ps l sc k [], ?_, ?_⟩
  · intro front a back e hf ha
    subst e
    refine ⟨?_, rfl⟩
    simpa using collisionLoop_hit shape g draws p ps front back a sc k [] hf ha
  · obtain ⟨h1, h2, h3, _, _⟩ := collisionLoop_totals shape g draws ps l sc k []
    refine ⟨h1, ?_, ?_⟩
    · simp only [List.length_nil] at h2
      omega
    · simpa using h3

theorem sampleLaser_hits_small (x : ℚ) :
    projectileHits sampleLaser (sampleSmall x) = decide (x * x < 18 * 18) := by
  simp [projectileHits, distanceLt, distSq, sampleLaser, sampleSmall, Projectile.new,
    Projectile.GetPosition, Projectile.GetRadius, Asteroid.GetPosition, Asteroid.GetRadius,
    Size.val]
  norm_num

theorem sampleLaser_hits_large (y : ℚ) :
    projectileHits sampleLaser (sampleLarge y) = decide (y * y < 66 * 66) := by
  simp [projectileHits, distanceLt, distSq, sampleLaser, sampleLarge, Projectile.new,
    Projectile.GetPosition, Projectile.GetRadius, Asteroid.GetPosition, Asteroid.GetRadius,
    Size.val]
  norm_num

/-- C2 on a laser bolt that misses a small asteroid and overlaps the large one
behind it. -/
theorem C2_large_split_witness :
    scanAsteroids sampleLaser [sampleSmall 400, sampleLarge 60] 0 = some (1, sampleLarge 60) ∧
    ∃ f0 f1 f2 f3,
      (resolveHit .RANDOM 1 sampleSplitDraws 0 1 (sampleLarge 60)
        ⟨[sampleLaser], [sampleSmall 400, sampleLarge 60], 0, 0, []⟩).asteroids
        = [sampleSmall 400, sampleLarge 60].eraseIdx 1 ++ [f0, f1, f2, f3] ∧
      ∀ f ∈ [f0, f1, f2, f3], f.size = Size.SMALL ∧ f.GetSize = 1 ∧ f.GetRadius = 16 ∧
        f.GetPosition = (sampleLarge 60).GetPosition := by
  have hscan : scanAsteroids sampleLaser [sampleSmall 400, sampleLarge 60] 0
      = some (1, sampleLarge 60) := by
    simp only [scanAsteroids, sampleLaser_hits_small, sampleLaser_hits_large]
    norm_num
  exact ⟨hscan, (C2_large_split .RANDOM 1 sampleSplitDraws sampleLaser 0 1 (sampleLarge 60)
    ⟨[sampleLaser], [sampleSmall 400, sampleLarge 60], 0, 0, []⟩ hscan).2.1 rfl⟩

/-- C9 on a laser bolt that overlaps two small asteroids: the one destroyed is
the first of the collection, at distance 17, not the nearer one at distance 5. -/
theorem C9_first_match_pass_witness :
    collisionLoop .RANDOM 1 sampleSplitDraws 0
        ⟨[sampleLaser], [sampleSmall 17, sampleSmall 5], 0, 0, []⟩
      = ⟨[], [sampleSmall 5], 10, 0, [sampleSmall 17]⟩ := by
  have h := ((C9_first_match_pass .RANDOM 1 sampleSplitDraws sampleLaser []
    [sampleSmall 17, sampleSmall 5] 0 0).2.1 [] (sampleSmall 17) [sampleSmall 5] rfl
    (by simp) (by rw [sampleLaser_hits_small]; norm_num)).1
  rw [h, collisionLoop, dif_neg (by simp)]
  simp [fragments, Asteroid.GetSize, Asteroid.GetDamage, sampleSmall, Size.val]

/-! ### The asteroid-ship pass -/

theorem takeDamage_alive (s : Ship) (d : Int) (h : s.alive = true) :
    (s.TakeDamage d).hp = s.hp - d ∧ (s.TakeDamage d).transform = s.transform ∧
    (s.TakeDamage d).textureWidth = s.textureWidth ∧ (s.TakeDamage d).scale = s.scale := by
  unfold Ship.TakeDamage
  simp only [h, Bool.not_true, Bool.false_eq_true, if_false]
  split <;> simp

theorem moved_size (a : Asteroid) (dt : ℚ) : (a.moved dt).size = a.size := rfl

theorem update_fst (a : Asteroid) (dt : ℚ) : (a.Update dt).1 = a.moved dt := by
  unfold Asteroid.Update
  dsimp only
  split <;> rfl

theorem update_snd (a : Asteroid) (dt : ℚ) : (a.Update dt).2 = !(a.moved dt).outOfPlay := by
  unfold Asteroid.Update
  dsimp only
  split <;> simp_all

/-- Totals of the asteroid-ship pass. -/
theorem shipPass_totals (dt : ℚ) (l : List Asteroid) :
    ∀ player : Ship,
      (shipPass dt player l).asteroids.Sublist (l.map fun a => (a.Update dt).1) ∧
      (shipPass dt player l).hit.Sublist l ∧
      (shipPass dt player l).expired.Sublist l ∧
      (shipPass dt player l).asteroids.length + (shipPass dt player l).hit.length
        + (shipPass dt player l).expired.length = l.length ∧
      (shipPass dt player l).player.hp
        = player.hp - ((shipPass dt player l).hit.map Asteroid.GetDamage).sum ∧
      (∀ b ∈ (shipPass dt player l).asteroids, (b.outOfPlay = false)) ∧
      (shipPass dt player l).asteroids.length + 3 * countLarge (shipPass dt player l).asteroids
        ≤ l.length + 3 * countLarge l := by
  induction l with
  | nil => intro player; simp [shipPass, countLarge]
  | cons a rest ih =>
    intro player
    unfold shipPass
    by_cases hc : (player.IsAlive && shipHits player a) = true
    · simp only [hc, if_true]
      obtain ⟨h1, h2, h3, h4, h5, h6, h7⟩ := ih (player.TakeDamage a.GetDamage)
      have halive : player.alive = true := by
        simp only [Ship.IsAlive, Bool.and_eq_true] at hc
        exact hc.1
      refine ⟨?_, ?_, ?_, ?_, ?_, h6, ?_⟩
      · exact h1.trans (by simp)
      · exact h2.cons₂ a
      · exact h3.trans (List.sublist_cons_self _ _)
      · simp only [List.length_cons]
        omega
      · rw [h5, (takeDamage_alive player a.GetDamage halive).1]
        simp only [List.map_cons, List.sum_cons]
        omega
      · rw [countLarge_cons a rest]
        simp only [List.length_cons]
        omega
    · simp only [hc, Bool.false_eq_true, if_false]
      obtain ⟨h1, h2, h3, h4, h5, h6, h7⟩ := ih player
      by_cases hu : (a.Update dt).2 = true
      · simp only [hu, Bool.not_true, Bool.false_eq_true, if_false]
        refine ⟨?_, ?_, ?_, ?_, h5, ?_, ?_⟩
        · simpa using h1.cons₂ (a.Update dt).1
        · exact h2.trans (List.sublist_cons_self _ _)
        · exact h3.trans (List.sublist_cons_self _ _)
        · simp only [List.length_cons]
          omega
        · intro b hb
          rcases List.mem_cons.mp hb with rfl | hb
          · rw [update_snd] at hu
            rw [update_fst]
            simpa using hu
          · exact h6 b hb
        · rw [countLarge_cons a rest, countLarge_cons (a.Update dt).1]
          have : countLarge [(a.Update dt).1] = countLarge [a] := by
            simp only [countLarge, update_fst, List.countP_cons, moved_size]
          simp only [List.length_cons]
          omega
      · simp only [hu, Bool.not_false, if_true]
        refine ⟨?_, ?_, ?_, ?_, h5, h6, ?_⟩
        · exact h1.trans (by simp)
        · exact h2.trans (List.sublist_cons_self _ _)
        · exact h3.cons₂ a
        · simp only [List.length_cons]
          omega
        · rw [countLarge_cons a rest]
          simp only [List.length_cons]
          omega

/-- C10: the pass visits the asteroids once each, in order.  An asteroid that
overlaps the ship while the ship is alive is removed and the ship's hit points
drop by its damage; any other asteroid is updated and removed exactly when the
update reports it out of play.  The asteroids kept are, in their order, among
the updated given ones (none is added), every given asteroid is kept, removed
for a hit or removed for leaving play, and the ship ends with its hit points
minus the damages of the asteroids that hit it. -/
theorem C10_ship_pass (dt : ℚ) (player : Ship) (a : Asteroid) (rest l : List Asteroid) :
    (player.IsAlive = true → shipHits player a = true →
      shipPass dt player (a :: rest)
        = { shipPass dt (player.TakeDamage a.GetDamage) rest with
            hit := a :: (shipPass dt (player.TakeDamage a.GetDamage) rest).hit } ∧
      (player.TakeDamage a.GetDamage).hp = player.hp - a.GetDamage) ∧
    ((player.IsAlive = false ∨ shipHits player a = false) → (a.Update dt).2 = false →
      shipPass dt player (a :: rest)
        = { shipPass dt player rest with expired := a :: (shipPass dt player rest).expired }) ∧
    ((player.IsAlive = false ∨ shipHits player a = false) → (a.Update dt).2 = true →
      shipPass dt player (a :: rest)
        = { shipPass dt player rest with
            asteroids := (a.Update dt).1 :: (shipPass dt player rest).asteroids }) ∧
    ((shipPass dt player l).asteroids.Sublist (l.map fun b => (b.Update dt).1) ∧
      (shipPass dt player l).hit.Sublist l ∧
      (shipPass dt player l).expired.Sublist l ∧
      (shipPass dt player l).asteroids.length + (shipPass dt player l).hit.length
        + (shipPass dt player l).expired.length = l.length ∧
      (shipPass dt player l).player.hp
        = player.hp - ((shipPass dt player l).hit.map Asteroid.GetDamage).sum) := by
  refine ⟨fun h1 h2 => ?_, fun h1 h2 => ?_, fun h1 h2 => ?_, ?_⟩
  · constructor
    · conv_lhs => unfold shipPass
      simp [h1, h2]
    · exact (takeDamage_alive player a.GetDamage h1).1
  · have hc : (player.IsAlive && shipHits player a) = false := by
      rcases h1 with h | h <;> simp [h]
    conv_lhs => unfold shipPass
    simp [hc, h2]
  · have hc : (player.IsAlive && shipHits player a) = false := by
      rcases h1 with h | h <;> simp [h]
    conv_lhs => unfold shipPass
    simp [hc, h2]
  · obtain ⟨h1, h2, h3, h4, h5, _, _⟩ := shipPass_totals dt l player
    exact ⟨h1, h2, h3, h4, h5⟩

theorem ship_new_hits_medium (x y : ℚ) :
    shipHits (Ship.new 256) (sampleMedium x y)
      = decide ((800 - x) * (800 - x) + (500 - y) * (500 - y) < 64 * 64) := by
  simp [shipHits, distanceLt, distSq, Ship.new, Ship.GetPosition, Ship.GetRadius, sampleMedium,
    Asteroid.GetPosition, Asteroid.GetRadius, Size.val, C_WIDTH, C_HEIGHT]
  norm_num

/-- C10 on a fresh ship (radius 32 at (800, 500)) and a medium asteroid centred
50 above it: the asteroid is removed as a hit and the ship is left with 80 hit
points. -/
theorem C10_ship_pass_witness :
    shipPass (1 / 60) (Ship.new 256) [sampleMedium 800 450]
      = { shipPass (1 / 60) ((Ship.new 256).TakeDamage (sampleMedium 800 450).GetDamage) [] with
          hit := sampleMedium 800 450 ::
            (shipPass (1 / 60) ((Ship.new 256).TakeDamage (sampleMedium 800 450).GetDamage)
              []).hit } ∧
    ((Ship.new 256).TakeDamage (sampleMedium 800 450).GetDamage).hp
      = (Ship.new 256).hp - (sampleMedium 800 450).GetDamage ∧
    (Ship.new 256).hp - (sampleMedium 800 450).GetDamage = 80 := by
  have h := (C10_ship_pass (1 / 60) (Ship.new 256) (sampleMedium 800 450) [] []).1 rfl
    (by rw [ship_new_hits_medium]; norm_num)
  exact ⟨h.1, h.2, by simp [Ship.new, sampleMedium, Asteroid.GetDamage]⟩

/-! ### Fire control -/

theorem fireRate_pos (wt : WeaponType) : (0 : ℚ) < Ship.GetFireRate wt := by
  unfold Ship.GetFireRate fireRateLaser fireRateBullet
  split <;> norm_num

theorem fireRate_le (wt : WeaponType) : Ship.GetFireRate wt ≤ 22 := by
  unfold Ship.GetFireRate fireRateLaser fireRateBullet
  split <;> norm_num

theorem fireRate_ge (wt : WeaponType) : 18 ≤ Ship.GetFireRate wt := by
  unfold Ship.GetFireRate fireRateLaser fireRateBullet
  split <;> norm_num

/-- The firing loop runs `⌊shotTimer * fireRate⌋` times (no time if that is
negative) and leaves the timer below the interval. -/
theorem fireLoop_spec (env : Env) (player : Ship) (wt : WeaponType) :
    ∀ (m : Nat) (t : ℚ) (ps : List Projectile) (n : Nat),
      (⌊t * Ship.GetFireRate wt⌋).toNat = m →
      (fireLoop env player wt t ps n).events = n + m ∧
      (fireLoop env player wt t ps n).shotTimer < 1 / Ship.GetFireRate wt ∧
      (0 ≤ t → 0 ≤ (fireLoop env player wt t ps n).shotTimer) ∧
      (fireLoop env player wt t ps n).shotTimer = t - m * (1 / Ship.GetFireRate wt) := by
  have hr := fireRate_pos wt
  intro m
  induction m with
  | zero =>
    intro t ps n hm
    have hlt : t < 1 / Ship.GetFireRate wt := by
      by_contra hge
      push_neg at hge
      have h1 : (1 : ℚ) ≤ t * Ship.GetFireRate wt := by
        have := (div_le_iff₀ hr).mp hge
        linarith
      have h2 : (1 : ℤ) ≤ ⌊t * Ship.GetFireRate wt⌋ := Int.le_floor.mpr (by exact_mod_cast h1)
      omega
    rw [fireLoop, if_neg (not_le.mpr hlt)]
    exact ⟨rfl, hlt, fun h => h, by simp⟩
  | succ m ih =>
    intro t ps n hm
    have hfl : (1 : ℤ) ≤ ⌊t * Ship.GetFireRate wt⌋ := by omega
    have h1 : (1 : ℚ) ≤ t * Ship.GetFireRate wt := by
      have := Int.le_floor.mp hfl
      exact_mod_cast this
    have hge : t ≥ 1 / Ship.GetFireRate wt := by
      rw [ge_iff_le, div_le_iff₀ hr]
      linarith
    have e : (t - 1 / Ship.GetFireRate wt) * Ship.GetFireRate wt
        = t * Ship.GetFireRate wt - 1 := by
      field_simp
    have hm2 : (⌊(t - 1 / Ship.GetFireRate wt) * Ship.GetFireRate wt⌋).toNat = m := by
      rw [e, Int.floor_sub_one]
      omega
    obtain ⟨i1, i2, i3, i4⟩ := ih (t - 1 / Ship.GetFireRate wt)
      (ps ++ emit env player wt (Ship.GetSpacing wt * Ship.GetFireRate wt)) (n + 1) hm2
    rw [fireLoop, if_pos hge]
    refine ⟨by omega, i2, fun ht => i3 (by linarith), ?_⟩
    rw [i4]
    push_cast
    ring

theorem fmodf_bounds (x y : ℚ) (hx : 0 ≤ x) (hy : 0 < y) : 0 ≤ fmodf x y ∧ fmodf x y < y := by
  unfold fmodf
  have hq : 0 ≤ x / y := div_nonneg hx hy.le
  rw [if_pos hq]
  have h1 : (⌊x / y⌋ : ℚ) ≤ x / y := Int.floor_le _
  have h2 : x / y < (⌊x / y⌋ : ℚ) + 1 := Int.lt_floor_add_one _
  have e : x = y * (x / y) := by field_simp
  constructor
  · have : y * (⌊x / y⌋ : ℚ) ≤ y * (x / y) := mul_le_mul_of_nonneg_left h1 hy.le
    linarith
  · have : y * (x / y) < y * ((⌊x / y⌋ : ℚ) + 1) := mul_lt_mul_of_pos_left h2 hy
    linarith

theorem frameInputPhase_shotTimer (env : Env) (i : FrameInput) (s : State) :
    (frameInputPhase env i s).shotTimer = s.shotTimer := by
  simp only [frameInputPhase, restartLogic]
  split <;> rfl

theorem frame_shotTimer (env : Env) (i : FrameInput) (s : State) :
    (frame env i s).shotTimer
      = (shooting env i.keys.SPACE i.dt (frameInputPhase env i s)).1.shotTimer := by
  simp only [frame, asteroidShipPass, projectileAsteroidPass, spawnAsteroids]
  split <;> rfl

/-- The timer the shooting block leaves lies in `[0, 1/18)` when it started
there and the frame time is not negative. -/
theorem shooting_shotTimer (env : Env) (keySpace : Bool) (dt : ℚ) (s : State) (hdt : 0 ≤ dt)
    (h0 : 0 ≤ s.shotTimer) (h1 : s.shotTimer < 1 / 18) :
    0 ≤ (shooting env keySpace dt s).1.shotTimer ∧
    (shooting env keySpace dt s).1.shotTimer < 1 / 18 := by
  have hr := fireRate_pos s.currentWeapon
  have hge := fireRate_ge s.currentWeapon
  have hI : 1 / Ship.GetFireRate s.currentWeapon ≤ 1 / 18 :=
    one_div_le_one_div_of_le (by norm_num) hge
  unfold shooting
  split
  · obtain ⟨_, i2, i3, _⟩ := fireLoop_spec env s.player s.currentWeapon _ (s.shotTimer + dt)
      s.projectiles 0 rfl
    exact ⟨i3 (by linarith), lt_of_lt_of_le i2 hI⟩
  · dsimp only
    split
    · have hb := fmodf_bounds s.shotTimer (1 / Ship.GetFireRate s.currentWeapon) h0
        (by positivity)
      exact ⟨hb.1, lt_of_lt_of_le hb.2 hI⟩
    · exact ⟨h0, h1⟩

/-- In every reachable state the fire timer lies in `[0, 1/18)`. -/
theorem reachable_shotTimer (env : Env) (s : State) (h : Reachable env s) :
    0 ≤ s.shotTimer ∧ s.shotTimer < 1 / 18 := by
  induction h with
  | start interval0 => simp [State.initial]
  | step i s hdt _ ih =>
    rw [frame_shotTimer]
    exact shooting_shotTimer env i.keys.SPACE i.dt _ hdt
      (by rw [frameInputPhase_shotTimer]; exact ih.1)
      (by rw [frameInputPhase_shotTimer]; exact ih.2)

/-- Number of loop iterations of a held-fire update with the ship alive. -/
theorem shooting_events (env : Env) (dt : ℚ) (s : State) (halive : s.player.IsAlive = true) :
    (shooting env true dt s).2
      = (⌊(s.shotTimer + dt) * Ship.GetFireRate s.currentWeapon⌋).toNat := by
  unfold shooting
  simp only [halive, Bool.and_self, if_true]
  have := (fireLoop_spec env s.player s.currentWeapon _ (s.shotTimer + dt) s.projectiles 0 rfl).1
  simpa using this

/-- C4 amended: from a reachable state, an update with the fire key held, the
ship alive and frame time `dt ≥ 0` runs the firing loop at most
`⌈dt / interval⌉ + 1` times, and at most `⌈dt / interval⌉` times when the timer
is below the interval of the weapon in use when the update starts, which is
always so for the laser. -/
theorem C4_emission_bound (env : Env) (i : FrameInput) (s : State) (hs : Reachable env s)
    (hdt : 0 ≤ i.dt) (hkey : i.keys.SPACE = true)
    (halive : (frameInputPhase env i s).player.IsAlive = true) :
    ((frameEvents env i s : Nat) : Int)
      ≤ ⌈i.dt / (1 / Ship.GetFireRate (frameInputPhase env i s).currentWeapon)⌉ + 1 ∧
    (s.shotTimer < 1 / Ship.GetFireRate (frameInputPhase env i s).currentWeapon →
      ((frameEvents env i s : Nat) : Int)
        ≤ ⌈i.dt / (1 / Ship.GetFireRate (frameInputPhase env i s).currentWeapon)⌉) ∧
    ((frameInputPhase env i s).currentWeapon = WeaponType.LASER →
      ((frameEvents env i s : Nat) : Int) ≤ ⌈i.dt / (1 / 18)⌉) := by
  obtain ⟨h0, h1⟩ := reachable_shotTimer env s hs
  set w := (frameInputPhase env i s).currentWeapon with hw
  have hr := fireRate_pos w
  have hle := fireRate_le w
  have hev : frameEvents env i s = (⌊(s.shotTimer + i.dt) * Ship.GetFireRate w⌋).toNat := by
    unfold frameEvents
    rw [hkey, shooting_events env i.dt _ halive, frameInputPhase_shotTimer]
  have hnn : 0 ≤ (s.shotTimer + i.dt) * Ship.GetFireRate w :=
    mul_nonneg (by linarith) hr.le
  have hfl : (0 : ℤ) ≤ ⌊(s.shotTimer + i.dt) * Ship.GetFireRate w⌋ := Int.floor_nonneg.mpr hnn
  have hcast : ((frameEvents env i s : Nat) : Int)
      = ⌊(s.shotTimer + i.dt) * Ship.GetFireRate w⌋ := by
    rw [hev]
    exact Int.toNat_of_nonneg hfl
  have hdiv : i.dt / (1 / Ship.GetFireRate w) = i.dt * Ship.GetFireRate w := by
    field_simp
  have hceil : i.dt * Ship.GetFireRate w ≤ (⌈i.dt * Ship.GetFireRate w⌉ : ℚ) := Int.le_ceil _
  have hflo : (⌊(s.shotTimer + i.dt) * Ship.GetFireRate w⌋ : ℚ)
      ≤ (s.shotTimer + i.dt) * Ship.GetFireRate w := Int.floor_le _
  have hgen : s.shotTimer * Ship.GetFireRate w < 2 := by
    have : s.shotTimer * Ship.GetFireRate w ≤ s.shotTimer * 22 :=
      mul_le_mul_of_nonneg_left hle h0
    linarith
  have hsmall : s.shotTimer < 1 / Ship.GetFireRate w →
      ((frameEvents env i s : Nat) : Int) ≤ ⌈i.dt / (1 / Ship.GetFireRate w)⌉ := by
    intro hlt
    have h2 : s.shotTimer * Ship.GetFireRate w < 1 := by
      have := (lt_div_iff₀ hr).mp hlt
      linarith
    rw [hcast, hdiv]
    have : (⌊(s.shotTimer + i.dt) * Ship.GetFireRate w⌋ : ℚ)
        < (⌈i.dt * Ship.GetFireRate w⌉ : ℚ) + 1 := by linarith
    have : ⌊(s.shotTimer + i.dt) * Ship.GetFireRate w⌋ < ⌈i.dt * Ship.GetFireRate w⌉ + 1 := by
      exact_mod_cast this
    omega
  refine ⟨?_, hsmall, fun hL => ?_⟩
  · rw [hcast, hdiv]
    have : (⌊(s.shotTimer + i.dt) * Ship.GetFireRate w⌋ : ℚ)
        < (⌈i.dt * Ship.GetFireRate w⌉ : ℚ) + 2 := by linarith
    have : ⌊(s.shotTimer + i.dt) * Ship.GetFireRate w⌋ < ⌈i.dt * Ship.GetFireRate w⌉ + 2 := by
      exact_mod_cast this
    omega
  · have e18 : Ship.GetFireRate w = 18 := by
      rw [hL]
      simp [Ship.GetFireRate, fireRateLaser]
    have := hsmall (by rw [e18]; exact h1)
    rwa [e18] at this

theorem fireLoop_lt (env : Env) (player : Ship) (wt : WeaponType) (t : ℚ)
    (ps : List Projectile) (n : Nat) (h : t < 1 / Ship.GetFireRate wt) :
    fireLoop env player wt t ps n = ⟨ps, t, n⟩ := by
  rw [fireLoop, if_neg (not_le.mpr h)]

theorem collisionLoop_nil (shape : AsteroidShape) (g : ℚ) (draws : Nat → Nat → FragmentDraw)
    (l : List Asteroid) (sc : Int) (k : Nat) (log : List Asteroid) :
    collisionLoop shape g draws 0 ⟨[], l, sc, k, log⟩ = ⟨[], l, sc, k, log⟩ := by
  rw [collisionLoop, dif_neg (by simp)]

theorem rate_laser : Ship.GetFireRate WeaponType.LASER = 18 := by
  simp [Ship.GetFireRate, fireRateLaser]

theorem rate_bullet : Ship.GetFireRate WeaponType.BULLET = 22 := by
  simp [Ship.GetFireRate, fireRateBullet]

/-- The state after one frame of 1/20 s with the fire key held: no shot yet, the
fire timer stands at 1/20. -/
theorem holdFireFrame_state : frame sampleEnv holdFireFrame (State.initial sampleEnv (1 / 2))
    = { State.initial sampleEnv (1 / 2) with spawnTimer := 1 / 20, shotTimer := 1 / 20 } := by
  have e1 : frameInputPhase sampleEnv holdFireFrame (State.initial sampleEnv (1 / 2))
      = { State.initial sampleEnv (1 / 2) with spawnTimer := 1 / 20 } := by
    simp [frameInputPhase, holdFireFrame, sampleFrame, State.initial, sampleEnv, noKeys,
      Ship.Update, restartLogic, Ship.IsAlive, Ship.new, shapeSwitch, weaponSwitch]
  have e2 : (shooting sampleEnv true (1 / 20)
      { State.initial sampleEnv (1 / 2) with spawnTimer := 1 / 20 }).1
      = { State.initial sampleEnv (1 / 2) with spawnTimer := 1 / 20, shotTimer := 1 / 20 } := by
    unfold shooting
    simp only [State.initial, Ship.IsAlive, Ship.new, Bool.and_self, if_true]
    rw [fireLoop_lt _ _ _ _ _ _ (by rw [rate_laser]; norm_num)]
    norm_num
  unfold frame
  simp only [e1]
  have hk : holdFireFrame.keys.SPACE = true := rfl
  have hd : holdFireFrame.dt = 1 / 20 := rfl
  rw [hk, hd, e2]
  simp [spawnAsteroids, State.initial, updateProjectiles, projectileAsteroidPass,
    asteroidShipPass]
  norm_num
  rw [collisionLoop_nil]
  simp [shipPass]

theorem holdFireFrame_phase :
    frameInputPhase sampleEnv switchFireFrame
        { State.initial sampleEnv (1 / 2) with spawnTimer := 1 / 20, shotTimer := 1 / 20 }
      = { State.initial sampleEnv (1 / 2) with
          spawnTimer := 1 / 20 + 1 / 24, shotTimer := 1 / 20, currentWeapon := .BULLET } := by
  simp [frameInputPhase, switchFireFrame, sampleFrame, State.initial, sampleEnv, noKeys,
    Ship.Update, restartLogic, Ship.IsAlive, Ship.new, shapeSwitch, weaponSwitch,
    WeaponType.toInt, WeaponType.ofInt]

/-- C4 as stated fails.  After one frame of 1/20 s with the fire key held and the
laser selected (no shot, timer 1/20), a frame of 1/24 s in which the weapon key
switches to the bullet and the fire key is still held runs the firing loop twice,
while `⌈dt / interval⌉ = ⌈(1/24) / (1/22)⌉ = 1`. -/
theorem C4_burst_after_weapon_switch :
    Reachable sampleEnv (frame sampleEnv holdFireFrame (State.initial sampleEnv (1 / 2))) ∧
    0 ≤ switchFireFrame.dt ∧ switchFireFrame.keys.SPACE = true ∧
    (frameInputPhase sampleEnv switchFireFrame
      (frame sampleEnv holdFireFrame (State.initial sampleEnv (1 / 2)))).player.IsAlive = true ∧
    frameEvents sampleEnv switchFireFrame
      (frame sampleEnv holdFireFrame (State.initial sampleEnv (1 / 2))) = 2 ∧
    ⌈switchFireFrame.dt / (1 / Ship.GetFireRate (frameInputPhase sampleEnv switchFireFrame
      (frame sampleEnv holdFireFrame (State.initial sampleEnv (1 / 2)))).currentWeapon)⌉ = 1 := by
  have hreach : Reachable sampleEnv
      (frame sampleEnv holdFireFrame (State.initial sampleEnv (1 / 2))) :=
    Reachable.step holdFireFrame _ (by simp [holdFireFrame, sampleFrame]) (Reachable.start _)
  have halive : (frameInputPhase sampleEnv switchFireFrame
      (frame sampleEnv holdFireFrame (State.initial sampleEnv (1 / 2)))).player.IsAlive
      = true := by
    rw [holdFireFrame_state, holdFireFrame_phase]
    rfl
  have hw : (frameInputPhase sampleEnv switchFireFrame
      (frame sampleEnv holdFireFrame (State.initial sampleEnv (1 / 2)))).currentWeapon
      = WeaponType.BULLET := by
    rw [holdFireFrame_state, holdFireFrame_phase]
  have hdt : switchFireFrame.dt = 1 / 24 := rfl
  refine ⟨hreach, by rw [hdt]; norm_num, rfl, halive, ?_, ?_⟩
  · unfold frameEvents
    have hk : switchFireFrame.keys.SPACE = true := rfl
    rw [hk, shooting_events _ _ _ halive, hw, rate_bullet, hdt, holdFireFrame_state,
      holdFireFrame_phase]
    have : ⌊((1 : ℚ) / 20 + 1 / 24) * 22⌋ = 2 := by
      rw [Int.floor_eq_iff]
      norm_num
    dsimp only
    rw [this]
    rfl
  · rw [hw, rate_bullet, hdt, Int.ceil_eq_iff]
    norm_num

/-- C4 amended, on the first frame: 1/20 s with the fire key held from the
initial state. -/
theorem C4_emission_bound_witness :
    ((frameEvents sampleEnv holdFireFrame (State.initial sampleEnv (1 / 2)) : Nat) : Int)
      ≤ ⌈holdFireFrame.dt / (1 / Ship.GetFireRate (frameInputPhase sampleEnv holdFireFrame
          (State.initial sampleEnv (1 / 2))).currentWeapon)⌉ + 1 :=
  (C4_emission_bound sampleEnv holdFireFrame (State.initial sampleEnv (1 / 2))
    (Reachable.start _) (by simp [holdFireFrame, sampleFrame]) rfl
    (by simp [frameInputPhase, holdFireFrame, sampleFrame, State.initial, sampleEnv, noKeys,
      Ship.Update, restartLogic, Ship.IsAlive, Ship.new])).1

/-! ### The number of live asteroids -/

/-- The timer the shooting block leaves when the fire key is not held or the
ship is dead. -/
theorem shooting_released (env : Env) (keySpace : Bool) (dt : ℚ) (s : State)
    (h : (s.player.IsAlive && keySpace) = false) :
    (shooting env keySpace dt s).1.shotTimer
      = if s.shotTimer > 1 / Ship.GetFireRate s.currentWeapon then
          fmodf s.shotTimer (1 / Ship.GetFireRate s.currentWeapon)
        else s.shotTimer := by
  unfold shooting
  simp only [h, Bool.false_eq_true, if_false]
  split <;> rfl

theorem fmodf_congruent (x y : ℚ) (hx : 0 ≤ x) (hy : 0 < y) :
    x - fmodf x y = (⌊x / y⌋ : ℚ) * y := by
  unfold fmodf
  rw [if_pos (div_nonneg hx hy.le)]
  ring

/-- With the trigger released or the ship dead, a timer that starts at `t ≥ 0`
ends in `[0, interval]`, differs from `t` by a whole number of intervals, and
ends below the interval exactly when `t` is not the interval itself. -/
theorem shooting_released_spec (env : Env) (keySpace : Bool) (dt : ℚ) (s : State)
    (h : (s.player.IsAlive && keySpace) = false) (h0 : 0 ≤ s.shotTimer) :
    0 ≤ (shooting env keySpace dt s).1.shotTimer ∧
    (shooting env keySpace dt s).1.shotTimer ≤ 1 / Ship.GetFireRate s.currentWeapon ∧
    ((shooting env keySpace dt s).1.shotTimer < 1 / Ship.GetFireRate s.currentWeapon ↔
      s.shotTimer ≠ 1 / Ship.GetFireRate s.currentWeapon) ∧
    ∃ k : ℤ, s.shotTimer - (shooting env keySpace dt s).1.shotTimer
      = (k : ℚ) * (1 / Ship.GetFireRate s.currentWeapon) := by
  have hI : (0 : ℚ) < 1 / Ship.GetFireRate s.currentWeapon :=
    one_div_pos.mpr (fireRate_pos s.currentWeapon)
  rw [shooting_released env keySpace dt s h]
  by_cases hgt : s.shotTimer > 1 / Ship.GetFireRate s.currentWeapon
  · rw [if_pos hgt]
    have hb := fmodf_bounds s.shotTimer _ h0 hI
    refine ⟨hb.1, hb.2.le, ⟨fun _ => ne_of_gt hgt, fun _ => hb.2⟩,
      ⌊s.shotTimer / (1 / Ship.GetFireRate s.currentWeapon)⌋, ?_⟩
    exact fmodf_congruent s.shotTimer _ h0 hI
  · rw [if_neg hgt]
    push_neg at hgt
    refine ⟨h0, hgt, ⟨fun hlt => ne_of_lt hlt, fun hne => lt_of_le_of_ne hgt hne⟩, 0, ?_⟩
    simp

end Asteroids
